import Mathlib

/-!
Verification of the cycle execution engine of cycleOptima_esp_v4.

Shallow embedding of src/main/cycle.c (timeline builder, batch scheduler,
event dispatcher, sensor trigger monitor, skip/stop state machine), with
theorems settling the frozen claims about the specification.

Machine integers are modelled as Nat with explicit reduction modulo 2^32
at the places where the C performs uint32_t arithmetic; gpio_num_t is
modelled as Int with GPIO_NUM_NC = -1.
-/

namespace CycleOptima

/-- Reduction modulo 2^32, applied wherever the C code performs uint32_t
arithmetic (additions of millisecond offsets). -/
def u32 (x : Nat) : Nat := x % (2 ^ 32)

/-- BATCH_SIZE from cycle.c line 51: max timers to create at once. -/
def BATCH_SIZE : Nat := 200

/-- NUM_COMPONENTS from cycle.h. -/
def NUM_COMPONENTS : Nat := 8

/-- GPIO pin numbers from cycle.h (gpio_num_t modelled as Int). -/
def RETRACTOR_PIN : Int := 7

def DETERGENT_VALVE_PIN : Int := 8

def COLD_VALVE_PIN : Int := 5

def DRAIN_PUMP_PIN : Int := 19

def HOT_VALVE_PIN : Int := 9

def SOFT_VALVE_PIN : Int := 18

def MOTOR_ON_PIN : Int := 4

def MOTOR_DIRECTION_PIN : Int := 10

/-- GPIO_NUM_NC sentinel (ESP-IDF: not connected), value -1. -/
def GPIO_NUM_NC : Int := -1

/-- The all_pins array from cycle.c lines 45-48. -/
def all_pins : List Int :=
  [RETRACTOR_PIN, DETERGENT_VALVE_PIN, COLD_VALVE_PIN, DRAIN_PUMP_PIN,
   HOT_VALVE_PIN, SOFT_VALVE_PIN, MOTOR_ON_PIN, MOTOR_DIRECTION_PIN]

/-- EventType from cycle.h. -/
inductive EventType where
  | EVENT_ON : EventType
  | EVENT_OFF : EventType
deriving DecidableEq, Repr

/-- TimelineEvent from cycle.h: fire_time_us is a uint64 absolute offset
from phase start, pin is a gpio_num_t, level the GPIO level written. -/
structure TimelineEvent where
  fire_time_us : Nat
  type : EventType
  pin : Int
  level : Nat
deriving DecidableEq, Repr

/-- MotorPatternStep from cycle.h; direction is a C string pointer that can
be NULL, modelled as Option String. -/
structure MotorPatternStep where
  step_time_ms : Nat
  pause_time_ms : Nat
  direction : Option String
deriving DecidableEq, Repr

/-- MotorConfig from cycle.h; repeat_times is a C int (may be non-positive,
in which case the expansion loop body never runs). -/
structure MotorConfig where
  repeat_times : Int
  pattern : List MotorPatternStep
deriving DecidableEq, Repr

/-- PhaseComponent from cycle.h (the fields the execution engine reads). -/
structure PhaseComponent where
  compId : String
  start_ms : Nat
  duration_ms : Nat
  has_motor : Bool
  motor_cfg : Option MotorConfig
deriving DecidableEq, Repr

/-- Phase from cycle.h (the fields the execution engine reads). -/
structure Phase where
  start_time_ms : Nat
  components : List PhaseComponent
deriving DecidableEq, Repr

/-- The COMPONENT_PIN_MAP lookup of cycle.c lines 454-476: linear scan,
returning GPIO_NUM_NC when the role identifier is unknown. -/
def resolve_pin (compId : String) : Int :=
  if compId = "Retractor" then RETRACTOR_PIN
  else if compId = "Cold Valve" then COLD_VALVE_PIN
  else if compId = "Detergent Valve" then DETERGENT_VALVE_PIN
  else if compId = "Drain Pump" then DRAIN_PUMP_PIN
  else if compId = "Hot Valve" then HOT_VALVE_PIN
  else if compId = "Soft Valve" then SOFT_VALVE_PIN
  else if compId = "Motor" then MOTOR_ON_PIN
  else if compId = "Motor Direction" then MOTOR_DIRECTION_PIN
  else GPIO_NUM_NC

/-- Capacity-checked append used to model writes guarded by
`written < max_events` in cycle.c. -/
def emitIfRoom (acc : List TimelineEvent) (maxEvents : Nat) (ev : TimelineEvent) :
    List TimelineEvent :=
  if acc.length < maxEvents then acc ++ [ev] else acc

/-- Direction level from cycle.c lines 497-500: NULL direction or anything
other than "ccw" gives level 0 (cw), "ccw" gives level 1. -/
def dir_level (d : Option String) : Nat :=
  match d with
  | some s => if s = "ccw" then 1 else 0
  | none => 0

/-- Direction-set event of a motor pattern step (cycle.c lines 495-508). -/
def dirEvent (phase_base_ms t_ms : Nat) (step : MotorPatternStep) : TimelineEvent :=
  { fire_time_us := u32 (phase_base_ms + t_ms) * 1000
    type := EventType.EVENT_ON
    pin := MOTOR_DIRECTION_PIN
    level := dir_level step.direction }

/-- Motor actuate event (active-low ON, cycle.c lines 510-518). -/
def onEvent (phase_base_ms t_ms : Nat) : TimelineEvent :=
  { fire_time_us := u32 (phase_base_ms + t_ms) * 1000
    type := EventType.EVENT_ON
    pin := MOTOR_ON_PIN
    level := 0 }

/-- Motor deactivate event after stepTime (cycle.c lines 520-529):
off_ms = t_ms + step_time_ms in uint32, fire at (base + off_ms) * 1000. -/
def offEvent (phase_base_ms t_ms : Nat) (step : MotorPatternStep) : TimelineEvent :=
  { fire_time_us := u32 (phase_base_ms + u32 (t_ms + step.step_time_ms)) * 1000
    type := EventType.EVENT_OFF
    pin := MOTOR_ON_PIN
    level := 1 }

/-- Cursor advance at the end of a pattern step (cycle.c line 532):
t_ms += step_time_ms + pause_time_ms in uint32 arithmetic. -/
def stepAdvance (t_ms : Nat) (step : MotorPatternStep) : Nat :=
  u32 (t_ms + step.step_time_ms + step.pause_time_ms)

/-- Body of the inner pattern loop of append_motor_events (cycle.c lines
492-533): state is (t_ms, events written so far); each of the three emits
is guarded by the capacity check. -/
def motorStepEmit (phase_base_ms maxEvents : Nat)
    (st : Nat × List TimelineEvent) (step : MotorPatternStep) :
    Nat × List TimelineEvent :=
  let acc1 := emitIfRoom st.2 maxEvents (dirEvent phase_base_ms st.1 step)
  let acc2 := emitIfRoom acc1 maxEvents (onEvent phase_base_ms st.1)
  let acc3 := emitIfRoom acc2 maxEvents (offEvent phase_base_ms st.1 step)
  (stepAdvance st.1 step, acc3)

/-- append_motor_events from cycle.c lines 480-537: expand a motor
component into timeline events; returns the written events in order.
The outer loop runs repeat_times times (a C int: non-positive means zero
iterations), the inner loop walks the pattern. -/
def append_motor_events (c : PhaseComponent) (phase_base_ms maxEvents : Nat) :
    List TimelineEvent :=
  match c.motor_cfg with
  | none => []
  | some mc =>
      ((List.range mc.repeat_times.toNat).foldl
        (fun st _ => mc.pattern.foldl (motorStepEmit phase_base_ms maxEvents) st)
        (c.start_ms, ([] : List TimelineEvent))).2

/-- Simple-component ON event (cycle.c lines 576-583). -/
def simpleOnEvent (start_time_ms : Nat) (c : PhaseComponent) : TimelineEvent :=
  { fire_time_us := u32 (start_time_ms + c.start_ms) * 1000
    type := EventType.EVENT_ON
    pin := resolve_pin c.compId
    level := 0 }

/-- Simple-component OFF event (cycle.c lines 585-594):
off_ms = start_time_ms + start_ms + duration_ms in uint32. -/
def simpleOffEvent (start_time_ms : Nat) (c : PhaseComponent) : TimelineEvent :=
  { fire_time_us := u32 (start_time_ms + c.start_ms + c.duration_ms) * 1000
    type := EventType.EVENT_OFF
    pin := resolve_pin c.compId
    level := 1 }

/-- Loop of build_timeline_from_phase (cycle.c lines 551-595): walk the
components while idx < max_events; motor components (has_motor and a
non-NULL motor_cfg) are expanded with the remaining capacity; unknown
role identifiers resolve to GPIO_NUM_NC and are skipped with a warning;
otherwise an ON and an OFF event are emitted, each capacity-checked. -/
def buildTimelineGo (start_time_ms maxEvents : Nat) :
    List PhaseComponent → List TimelineEvent → List TimelineEvent
  | [], acc => acc
  | c :: rest, acc =>
      if acc.length < maxEvents then
        if c.has_motor = true ∧ c.motor_cfg.isSome = true then
          buildTimelineGo start_time_ms maxEvents rest
            (acc ++ append_motor_events c start_time_ms (maxEvents - acc.length))
        else if resolve_pin c.compId = GPIO_NUM_NC then
          buildTimelineGo start_time_ms maxEvents rest acc
        else
          buildTimelineGo start_time_ms maxEvents rest
            (emitIfRoom (emitIfRoom acc maxEvents (simpleOnEvent start_time_ms c))
              maxEvents (simpleOffEvent start_time_ms c))
      else acc

/-- build_timeline_from_phase from cycle.c lines 540-602. -/
def build_timeline_from_phase (phase : Phase) (maxEvents : Nat) : List TimelineEvent :=
  buildTimelineGo phase.start_time_ms maxEvents phase.components []

/-!
Batch scheduler model (run_phase_with_esp_timer, cycle.c lines 654-844).

The run of a phase is modelled as the list of timer operations the
function performs on the bounded handle array and on the boundary timer,
in program order, for the nominal run (semaphore present, every
esp_timer_create succeeds, the phase stays active through all batch
loads; early exits only cut the trace at an iteration boundary).

Clock reads are supplied by a TimerEnv: the code reads the monotonic clock
per event while loading the first batch (line 712), once per loop
iteration for subsequent batches (line 787), and - notably - not at all
when scheduling the first boundary timer (lines 726-728).
-/

/-- Abstract timer operations performed by the batch scheduler.
createEvent slot ev delay: esp_timer_create + esp_timer_start_once for an
event timer stored in timers[slot]; deleteEvent slot: esp_timer_stop +
esp_timer_delete of timers[slot]; createBoundary / deleteBoundary: the
same for the batch boundary timer. -/
inductive SchedAction where
  | createEvent (slot : Nat) (ev : TimelineEvent) (delay_us : Nat) : SchedAction
  | deleteEvent (slot : Nat) : SchedAction
  | createBoundary (delay_us : Nat) : SchedAction
  | deleteBoundary : SchedAction
deriving DecidableEq, Repr

/-- Placeholder event used for out-of-range array reads (never reached on
indices the code actually uses). -/
def defaultEvent : TimelineEvent :=
  { fire_time_us := 0, type := EventType.EVENT_ON, pin := GPIO_NUM_NC, level := 0 }

/-- Array read g_phase_ctx.events[i]. -/
def evAt (events : List TimelineEvent) (i : Nat) : TimelineEvent :=
  events.getD i defaultEvent

/-- batches_total = (n + BATCH_SIZE - 1) / BATCH_SIZE (cycle.c line 681). -/
def batchesTotal (n : Nat) : Nat := (n + BATCH_SIZE - 1) / BATCH_SIZE

/-- Index of the first event of batch k. -/
def batchStart (k : Nat) : Nat := k * BATCH_SIZE

/-- Number of events in batch k: min(start + BATCH_SIZE, n) - start
(cycle.c lines 689-690 and 779-782). -/
def batchCount (n k : Nat) : Nat := min (batchStart k + BATCH_SIZE) n - batchStart k

/-- Event-timer delay computation, identical at cycle.c lines 711-719
(first batch) and 806-812 (subsequent batches): the absolute fire time
minus the time elapsed since phase start, clamped to 1000 us when the
event is already late. -/
def event_delay_us (fire_time_us elapsed_us : Nat) : Nat :=
  if elapsed_us < fire_time_us then fire_time_us - elapsed_us else 1000

/-- Boundary-timer delay for the first batch (cycle.c lines 727-728): the
last event's absolute fire time plus 1000 us, with no subtraction of the
time already elapsed since phase start (the clock is not read here). -/
def first_boundary_delay_us (last_fire_us : Nat) : Nat := last_fire_us + 1000

/-- Boundary-timer delay for subsequent batches (cycle.c lines 820-827):
(last fire time - time since phase start) + 1000 us, or 1000 us when the
last event is already due. -/
def boundary_delay_us (last_fire_us elapsed_us : Nat) : Nat :=
  if elapsed_us < last_fire_us then (last_fire_us - elapsed_us) + 1000 else 1000

/-- Clock observations of one phase run. firstEventElapsed i is
now - base_us when the first batch's event i is scheduled (the clock is
read inside that loop, line 712); wakeElapsed k is
now_us2 - batch_start_us2 measured once after the task wakes to load
batch k (k >= 1, line 787); firstBoundaryElapsed is the time elapsed
since phase start at the moment the first boundary timer is created -
the code does not read the clock there (lines 726-743), so the produced
trace never depends on this field. -/
structure TimerEnv where
  firstEventElapsed : Nat → Nat
  wakeElapsed : Nat → Nat
  firstBoundaryElapsed : Nat

/-- First-batch loading (cycle.c lines 688-723): one event timer per
event of batch 0, stored at slots 0, 1, .... -/
def firstBatchActions (events : List TimelineEvent) (env : TimerEnv) : List SchedAction :=
  (List.range (batchCount events.length 0)).map fun i =>
    SchedAction.createEvent i (evAt events i)
      (event_delay_us (evAt events i).fire_time_us (env.firstEventElapsed i))

/-- First boundary timer (cycle.c lines 726-743), only when more than one
batch exists; its delay is the last first-batch event's fire time plus
1000 us, independent of the elapsed time. -/
def firstBoundaryActions (events : List TimelineEvent) : List SchedAction :=
  if 1 < batchesTotal events.length then
    [SchedAction.createBoundary
      (first_boundary_delay_us (evAt events (batchCount events.length 0 - 1)).fire_time_us)]
  else []

/-- Deletion sweep at the top of a loop iteration that is about to load
batch k (cycle.c lines 761-768): the code visits all BATCH_SIZE slots and
deletes the non-NULL handles, which in the nominal run are exactly the
slots batch k-1 filled. -/
def iterDeletions (n k : Nat) : List SchedAction :=
  (List.range (batchCount n (k - 1))).map SchedAction.deleteEvent

/-- Creation of batch k's event timers in task context (cycle.c lines
778-816); all delays use the single clock reading wakeElapsed k. -/
def iterCreations (events : List TimelineEvent) (env : TimerEnv) (k : Nat) :
    List SchedAction :=
  (List.range (batchCount events.length k)).map fun i =>
    SchedAction.createEvent i (evAt events (batchStart k + i))
      (event_delay_us (evAt events (batchStart k + i)).fire_time_us (env.wakeElapsed k))

/-- Boundary timer scheduled after loading batch k (cycle.c lines
818-842), guarded only by next_events > 0 - it is scheduled for the last
batch as well. -/
def iterBoundary (events : List TimelineEvent) (env : TimerEnv) (k : Nat) :
    List SchedAction :=
  if 0 < batchCount events.length k then
    [SchedAction.createBoundary
      (boundary_delay_us
        (evAt events (batchStart k + batchCount events.length k - 1)).fire_time_us
        (env.wakeElapsed k))]
  else []

/-- One iteration of the batch-advance loop (cycle.c lines 748-843),
loading batch k (k >= 1): delete the previous batch's event timers,
delete the previous boundary timer, create batch k's event timers, then
schedule the next boundary timer. -/
def iterActions (events : List TimelineEvent) (env : TimerEnv) (k : Nat) :
    List SchedAction :=
  iterDeletions events.length k ++ [SchedAction.deleteBoundary] ++
    iterCreations events env k ++ iterBoundary events env k

/-- Concatenation of the loop iterations that load batches 1..m. -/
def iterSeq (events : List TimelineEvent) (env : TimerEnv) : Nat → List SchedAction
  | 0 => []
  | m + 1 => iterSeq events env m ++ iterActions events env (m + 1)

/-- Full trace of timer operations of run_phase_with_esp_timer on a
phase whose built timeline is events, for the nominal run: first batch,
first boundary timer, then the loop iterations for batches
1..batches_total-1 (the loop condition current_batch_idx + 1 <
batches_total at line 748). -/
def traceRun (events : List TimelineEvent) (env : TimerEnv) : List SchedAction :=
  firstBatchActions events env ++ firstBoundaryActions events ++
    iterSeq events env (batchesTotal events.length - 1)

/-- Prefix of the trace ending right after the deletion sweep of the
iteration that is about to load batch k: used to state that the bounded
handle array is completely empty before any of batch k's timers are
created. -/
def traceUpToDeletions (events : List TimelineEvent) (env : TimerEnv) (k : Nat) :
    List SchedAction :=
  firstBatchActions events env ++ firstBoundaryActions events ++
    iterSeq events env (k - 1) ++ iterDeletions events.length k ++
    [SchedAction.deleteBoundary]

/-- Effect of one timer operation on the set of live event-timer slots. -/
def applyAct (s : Finset Nat) : SchedAction → Finset Nat
  | SchedAction.createEvent slot _ _ => insert slot s
  | SchedAction.deleteEvent slot => s.erase slot
  | SchedAction.createBoundary _ => s
  | SchedAction.deleteBoundary => s

/-- Live event-timer slots after running a list of timer operations. -/
def runActs (s : Finset Nat) (l : List SchedAction) : Finset Nat :=
  l.foldl applyAct s

/-- Delays of the event timers created by a list of operations, in order. -/
def eventDelays (l : List SchedAction) : List Nat :=
  l.filterMap fun a =>
    match a with
    | SchedAction.createEvent _ _ d => some d
    | _ => none

/-- Delays of the boundary timers created by a list of operations, in order. -/
def boundaryDelays (l : List SchedAction) : List Nat :=
  l.filterMap fun a =>
    match a with
    | SchedAction.createBoundary d => some d
    | _ => none

/-- Fire time of the last event (by array index) of batch k. -/
def lastFireOfBatch (events : List TimelineEvent) (k : Nat) : Nat :=
  (evAt events (batchStart k + batchCount events.length k - 1)).fire_time_us

/-!
Event dispatcher (event_timer_cb, cycle.c lines 604-627).
-/

/-- State read and written by the event dispatcher: the gpio_shadow array
(one level per entry of all_pins) and the completion bookkeeping of
g_phase_ctx. -/
structure DispatchState where
  gpio_shadow : List Nat
  remaining_events : Nat
  active : Bool
deriving DecidableEq, Repr

/-- Shadow update of cycle.c lines 612-617: scan all_pins, set the entry
whose pin matches and stop at the first match. -/
def updateShadow (shadow : List Nat) (pin : Int) (level : Nat) : List Nat :=
  match all_pins.findIdx? (fun p => p = pin) with
  | some i => shadow.set i level
  | none => shadow

/-- event_timer_cb from cycle.c lines 604-627: a timer fired for ev.
Events with pin GPIO_NUM_NC return immediately; otherwise the output
level is written (physical GPIO write is external), the shadow is
updated, and remaining_events is decremented if positive; when it reaches
zero the phase is marked inactive. -/
def event_timer_cb (ev : TimelineEvent) (st : DispatchState) : DispatchState :=
  if ev.pin = GPIO_NUM_NC then st
  else if 0 < st.remaining_events then
    if st.remaining_events - 1 = 0 then
      { gpio_shadow := updateShadow st.gpio_shadow ev.pin ev.level
        remaining_events := st.remaining_events - 1
        active := false }
    else
      { gpio_shadow := updateShadow st.gpio_shadow ev.pin ev.level
        remaining_events := st.remaining_events - 1
        active := st.active }
  else { st with gpio_shadow := updateShadow st.gpio_shadow ev.pin ev.level }

/-- Firing a list of events through the dispatcher, in order. -/
def fireAll (evs : List TimelineEvent) (st : DispatchState) : DispatchState :=
  evs.foldl (fun s ev => event_timer_cb ev s) st

/-!
Sensor trigger monitor (check_phase_sensor_trigger, cycle.c lines
850-911).
-/

/-- SensorType from cycle.h parsing (cycle.c lines 212-220). -/
inductive SensorType where
  | RPM : SensorType
  | PRESSURE : SensorType
  | UNKNOWN : SensorType
deriving DecidableEq, Repr

/-- SensorTrigger: threshold comparison configuration plus the
has_triggered latch. -/
structure SensorTrigger where
  type : SensorType
  threshold : Nat
  trigger_above : Bool
  has_triggered : Bool
deriving DecidableEq, Repr

/-- PHASE_SENSOR_COOLDOWN_MS from cycle.c line 852. -/
def PHASE_SENSOR_COOLDOWN_MS : Nat := 15000

/-- Environment read by the trigger check: the monotonic clock and the
two sensor readings (already cast to uint32 in the C). -/
structure SensorEnv where
  now_us : Nat
  phase_start_us : Nat
  rpm : Nat
  pressure_freq : Nat

/-- Elapsed milliseconds since phase start as computed at cycle.c line
878: (now_us - phase_start_us) / 1000 with an underflow guard. -/
def phaseElapsedMs (env : SensorEnv) : Nat :=
  if env.phase_start_us ≤ env.now_us then (env.now_us - env.phase_start_us) / 1000 else 0

/-- Sensor reading selected by the trigger type (cycle.c lines 884-891);
only reached for RPM or PRESSURE. -/
def sensorValue (ty : SensorType) (env : SensorEnv) : Nat :=
  match ty with
  | SensorType.RPM => env.rpm
  | _ => env.pressure_freq

/-- Threshold comparison of cycle.c lines 894-899. -/
def shouldTrigger (trigger : SensorTrigger) (sensor_value : Nat) : Bool :=
  if trigger.trigger_above = true then decide (trigger.threshold < sensor_value)
  else decide (sensor_value < trigger.threshold)

/-- check_phase_sensor_trigger from cycle.c lines 850-911. phases holds
each phase's optional sensor trigger (g_phases[i].sensor_trigger);
current_phase_index is 1-based. Returns the should-trigger flag and the
updated trigger list (the C sets trigger->has_triggered in place). -/
def check_phase_sensor_trigger (cycle_running : Bool) (current_phase_index : Int)
    (phases : List (Option SensorTrigger)) (env : SensorEnv) :
    Bool × List (Option SensorTrigger) :=
  if cycle_running = false ∨ current_phase_index ≤ 0 ∨
      (phases.length : Int) < current_phase_index then
    (false, phases)
  else if current_phase_index - 1 < 0 ∨
      (phases.length : Int) ≤ current_phase_index - 1 then
    (false, phases)
  else
    match phases.getD (current_phase_index - 1).toNat none with
    | none => (false, phases)
    | some trigger =>
        if trigger.has_triggered = true then (false, phases)
        else if phaseElapsedMs env < PHASE_SENSOR_COOLDOWN_MS then (false, phases)
        else
          match trigger.type with
          | SensorType.UNKNOWN => (false, phases)
          | ty =>
              if shouldTrigger trigger (sensorValue ty env) = true then
                (true, phases.set (current_phase_index - 1).toNat
                  (some { trigger with has_triggered := true }))
              else (false, phases)

/-!
Skip/stop state machine (cycle_skip_current_phase, cycle_skip_to_phase,
and the target-index check at the top of run_cycle's phase loop; cycle.c
lines 922-1016).
-/

/-- State touched by cycle_skip_current_phase: the phase context's active
flag, bounded timer-handle array, boundary timer handle, batch semaphore,
and the global gpio_shadow array. -/
structure SkipState where
  active : Bool
  timers : List (Option Nat)
  batch_timer : Option Nat
  batch_sem : Option Nat
  gpio_shadow : List Nat
deriving DecidableEq, Repr

/-- cycle_skip_current_phase from cycle.c lines 922-961: a no-op when no
phase is active; otherwise stops and deletes every live event timer and
the boundary timer, deletes the semaphore, optionally forces all outputs
off (active-low level 1), and clears the active flag. cycle_running is
deliberately not touched (line 959). -/
def cycle_skip_current_phase (force_off_all : Bool) (s : SkipState) : SkipState :=
  if s.active = false then s
  else
    { active := false
      timers := s.timers.map fun _ => none
      batch_timer := none
      batch_sem := none
      gpio_shadow := if force_off_all then s.gpio_shadow.map fun _ => 1 else s.gpio_shadow }

/-- Globals consulted by cycle_skip_to_phase: the cycle_running flag, the
target_phase_index sentinel (-1 none, -2 stop), and the phase context. -/
structure CycleGlobals where
  cycle_running : Bool
  target_phase_index : Int
  phase_ctx : SkipState
deriving DecidableEq, Repr

/-- cycle_skip_to_phase from cycle.c lines 963-974: returns untouched
when no cycle is running; otherwise records the requested index (with no
range validation) and cancels the current phase with outputs forced
off. -/
def cycle_skip_to_phase (phase_index : Nat) (g : CycleGlobals) : CycleGlobals :=
  if g.cycle_running = false then g
  else
    { g with
        target_phase_index := (phase_index : Int)
        phase_ctx := cycle_skip_current_phase true g.phase_ctx }

/-- Control decision taken by run_cycle's phase loop when it observes the
target index. -/
inductive LoopDecision where
  | stopCycle : LoopDecision
  | rejectAndBreak : LoopDecision
  | jumpTo (idx : Nat) : LoopDecision
  | proceed : LoopDecision
deriving DecidableEq, Repr

/-- Target-index check at the top of each run_cycle loop iteration
(cycle.c lines 999-1016): -2 breaks out of the cycle loop; a
non-negative index at least num_phases logs a warning, resets the target
and also breaks out of the cycle loop; an in-range index jumps to that
phase; otherwise the loop proceeds normally. Returns the decision and
the new target_phase_index. -/
def run_cycle_check_target (target : Int) (num_phases : Nat) : LoopDecision × Int :=
  if target = -2 then (LoopDecision.stopCycle, -1)
  else if 0 ≤ target then
    if (num_phases : Int) ≤ target then (LoopDecision.rejectAndBreak, -1)
    else (LoopDecision.jumpTo target.toNat, -1)
  else (LoopDecision.proceed, target)

/-!
Concrete inputs used by witnesses and counterexamples.
-/

/-- A timeline of 201 identical events (two batches of 200 and 1), all
firing 10000 us after phase start. -/
def ev201cex : List TimelineEvent :=
  List.replicate 201 { fire_time_us := 10000, type := EventType.EVENT_ON, pin := 4, level := 0 }

/-- A clock environment: every first-batch creation and every batch wake
observes zero elapsed time, while 500 us have elapsed when the first
boundary timer is created. -/
def env500cex : TimerEnv :=
  { firstEventElapsed := fun _ => 0, wakeElapsed := fun _ => 0, firstBoundaryElapsed := 500 }

/-- A concrete skip state with an active phase, live timers and mixed
output levels. -/
def skipStateW : SkipState :=
  { active := true
    timers := [some 1, none, some 2]
    batch_timer := some 7
    batch_sem := some 9
    gpio_shadow := [0, 1, 0, 1, 0, 1, 0, 1] }

/-- Concrete globals with a running cycle and an active phase. -/
def globalsW : CycleGlobals :=
  { cycle_running := true, target_phase_index := -1, phase_ctx := skipStateW }

/-!
C9: skip-current-phase with no active phase is a no-op.
-/

/-- C9: calling cycle_skip_current_phase when the phase context's active
flag is false returns immediately and leaves every piece of state (timer
handles, boundary timer, semaphore, output shadow, active flag)
unchanged, for either value of force_off_all. -/
theorem skip_inactive_noop (force_off_all : Bool) (s : SkipState)
    (h : s.active = false) :
    cycle_skip_current_phase force_off_all s = s := by
  unfold cycle_skip_current_phase
  simp [h]

/-- Witness for C9 at a concrete inactive state. -/
theorem skip_inactive_noop_witness :
    cycle_skip_current_phase true { skipStateW with active := false } =
      { skipStateW with active := false } :=
  skip_inactive_noop true { skipStateW with active := false } rfl

/-!
C7: out-of-range skip-to-phase requests.
-/

/-- C7 counterexample: with 2 phases loaded, a running cycle and an
active phase, the request skip-to-phase 5 is NOT rejected without state
change: it immediately cancels the running phase (active goes false),
and when the phase loop next observes the recorded target it breaks out
of the cycle loop instead of continuing. -/
theorem skip_to_phase_out_of_range_cex :
    globalsW.phase_ctx.active = true ∧
    (cycle_skip_to_phase 5 globalsW).phase_ctx.active = false ∧
    (cycle_skip_to_phase 5 globalsW).phase_ctx.gpio_shadow ≠ globalsW.phase_ctx.gpio_shadow ∧
    (run_cycle_check_target (cycle_skip_to_phase 5 globalsW).target_phase_index 2).1 =
      LoopDecision.rejectAndBreak := by
  refine ⟨rfl, rfl, ?_, rfl⟩
  decide

/-- C7 amended: a skip-to-phase request whose index is out of range
(index at least the number of phases), issued while the cycle runs and a
phase is active, cancels the current phase immediately (outputs forced
off, timers and semaphore cleared) and records the target index; at the
phase loop's next iteration the out-of-range index is warned about,
reset to -1, and the loop exits entirely, ending the cycle rather than
continuing it. -/
theorem skip_to_phase_out_of_range_amended (g : CycleGlobals) (idx num_phases : Nat)
    (hrun : g.cycle_running = true) (hact : g.phase_ctx.active = true)
    (hidx : num_phases ≤ idx) :
    (cycle_skip_to_phase idx g).target_phase_index = (idx : Int) ∧
    (cycle_skip_to_phase idx g).phase_ctx.active = false ∧
    (cycle_skip_to_phase idx g).phase_ctx.batch_timer = none ∧
    (cycle_skip_to_phase idx g).phase_ctx.batch_sem = none ∧
    (cycle_skip_to_phase idx g).phase_ctx.gpio_shadow =
      g.phase_ctx.gpio_shadow.map (fun _ => 1) ∧
    (cycle_skip_to_phase idx g).cycle_running = true ∧
    run_cycle_check_target (cycle_skip_to_phase idx g).target_phase_index num_phases =
      (LoopDecision.rejectAndBreak, -1) := by
  have hskip :
      cycle_skip_current_phase true g.phase_ctx =
        { active := false
          timers := g.phase_ctx.timers.map fun _ => none
          batch_timer := none
          batch_sem := none
          gpio_shadow := g.phase_ctx.gpio_shadow.map fun _ => 1 } := by
    unfold cycle_skip_current_phase
    simp [hact]
  unfold cycle_skip_to_phase
  simp only [hrun]
  have hge : (num_phases : Int) ≤ (idx : Int) := by exact_mod_cast hidx
  have hnn : (0 : Int) ≤ (idx : Int) := Int.ofNat_nonneg idx
  have hne : (idx : Int) ≠ -2 := by omega
  unfold run_cycle_check_target
  simp [hskip, hne, hnn, hge]

/-- Witness for C7's amended theorem at the concrete globals. -/
theorem skip_to_phase_out_of_range_amended_witness :
    run_cycle_check_target (cycle_skip_to_phase 5 globalsW).target_phase_index 2 =
      (LoopDecision.rejectAndBreak, -1) :=
  (skip_to_phase_out_of_range_amended globalsW 5 2 rfl rfl (by decide)).2.2.2.2.2.2

/-!
C8: sensor trigger cooldown.
-/

/-- C8: whenever less than PHASE_SENSOR_COOLDOWN_MS (15000 ms) has
elapsed since phase start, check_phase_sensor_trigger returns false and
leaves every trigger untouched (in particular has_triggered stays
false), even if the threshold comparison would already be satisfied by
the current sensor reading. -/
theorem sensor_trigger_cooldown (cycle_running : Bool) (current_phase_index : Int)
    (phases : List (Option SensorTrigger)) (env : SensorEnv)
    (h : env.now_us < env.phase_start_us + PHASE_SENSOR_COOLDOWN_MS * 1000) :
    check_phase_sensor_trigger cycle_running current_phase_index phases env =
      (false, phases) := by
  have hc : phaseElapsedMs env < PHASE_SENSOR_COOLDOWN_MS := by
    unfold phaseElapsedMs
    unfold PHASE_SENSOR_COOLDOWN_MS at h ⊢
    split
    · have := (Nat.div_lt_iff_lt_mul (show 0 < 1000 by norm_num)).mpr
        (show env.now_us - env.phase_start_us < 15000 * 1000 by omega)
      omega
    · omega
  unfold check_phase_sensor_trigger
  simp only [hc, if_true]
  repeat' split
  all_goals rfl

/-- Witness for C8: a trigger whose threshold condition is already met
(reading 80 above threshold 50) still does not fire 10 ms into the
phase. -/
theorem sensor_trigger_cooldown_witness :
    check_phase_sensor_trigger true 1
      [some { type := SensorType.RPM, threshold := 50, trigger_above := true,
              has_triggered := false }]
      { now_us := 10000, phase_start_us := 0, rpm := 80, pressure_freq := 0 } =
      (false,
        [some { type := SensorType.RPM, threshold := 50, trigger_above := true,
                has_triggered := false }]) :=
  sensor_trigger_cooldown true 1
    [some { type := SensorType.RPM, threshold := 50, trigger_above := true,
            has_triggered := false }]
    { now_us := 10000, phase_start_us := 0, rpm := 80, pressure_freq := 0 }
    (by norm_num [PHASE_SENSOR_COOLDOWN_MS])

/-!
Helper lemmas about the delay projections of trace segments.
-/

lemma filterMap_all_none {α β : Type} (f : α → Option β) (l : List α)
    (h : ∀ a, f a = none) : l.filterMap f = [] := by
  induction l with
  | nil => rfl
  | cons a l ih => simp [List.filterMap_cons, h, ih]

lemma filterMap_all_some {α β : Type} (f : α → Option β) (g : α → β) (l : List α)
    (h : ∀ a, f a = some (g a)) : l.filterMap f = l.map g := by
  induction l with
  | nil => rfl
  | cons a l ih => simp [List.filterMap_cons, h, ih]

lemma eventDelays_append (l1 l2 : List SchedAction) :
    eventDelays (l1 ++ l2) = eventDelays l1 ++ eventDelays l2 := by
  unfold eventDelays
  exact List.filterMap_append l1 l2 _

lemma boundaryDelays_append (l1 l2 : List SchedAction) :
    boundaryDelays (l1 ++ l2) = boundaryDelays l1 ++ boundaryDelays l2 := by
  unfold boundaryDelays
  exact List.filterMap_append l1 l2 _

lemma eventDelays_iterDeletions (n k : Nat) : eventDelays (iterDeletions n k) = [] := by
  unfold eventDelays iterDeletions
  rw [List.filterMap_map]
  exact filterMap_all_none _ _ (fun a => rfl)

lemma eventDelays_deleteBoundary : eventDelays [SchedAction.deleteBoundary] = [] := rfl

lemma eventDelays_iterCreations (events : List TimelineEvent) (env : TimerEnv) (k : Nat) :
    eventDelays (iterCreations events env k) =
      (List.range (batchCount events.length k)).map fun i =>
        event_delay_us (evAt events (batchStart k + i)).fire_time_us (env.wakeElapsed k) := by
  unfold eventDelays iterCreations
  rw [List.filterMap_map]
  exact filterMap_all_some _ _ _ (fun a => rfl)

lemma eventDelays_iterBoundary (events : List TimelineEvent) (env : TimerEnv) (k : Nat) :
    eventDelays (iterBoundary events env k) = [] := by
  unfold iterBoundary
  split
  · rfl
  · rfl

lemma eventDelays_iterActions (events : List TimelineEvent) (env : TimerEnv) (k : Nat) :
    eventDelays (iterActions events env k) =
      (List.range (batchCount events.length k)).map fun i =>
        event_delay_us (evAt events (batchStart k + i)).fire_time_us (env.wakeElapsed k) := by
  unfold iterActions
  rw [eventDelays_append, eventDelays_append, eventDelays_append,
    eventDelays_iterDeletions, eventDelays_deleteBoundary,
    eventDelays_iterCreations, eventDelays_iterBoundary]
  simp

/-!
C1: event delays of batches after the first.
-/

/-- C1: for every batch k after the first (k is at least 1), woken at
elapsed time wakeElapsed k since phase start, the delay scheduled for
each event i of that batch (in particular its first event) is
fire_time_us - elapsed when that difference is positive and 1000 us
otherwise; with positive elapsed the delay is strictly below the raw
fire time, so the absolute fire time is never reused as a fresh relative
delay. -/
theorem later_batch_event_delay_absolute (events : List TimelineEvent) (env : TimerEnv)
    (k i : Nat) (hk1 : 1 ≤ k) (hk2 : k < batchesTotal events.length)
    (hi : i < batchCount events.length k) :
    (eventDelays (iterActions events env k)).get? i =
      some (event_delay_us (evAt events (batchStart k + i)).fire_time_us
        (env.wakeElapsed k)) ∧
    (env.wakeElapsed k < (evAt events (batchStart k + i)).fire_time_us →
      event_delay_us (evAt events (batchStart k + i)).fire_time_us (env.wakeElapsed k) =
        (evAt events (batchStart k + i)).fire_time_us - env.wakeElapsed k) ∧
    ((evAt events (batchStart k + i)).fire_time_us ≤ env.wakeElapsed k →
      event_delay_us (evAt events (batchStart k + i)).fire_time_us (env.wakeElapsed k) =
        1000) ∧
    (0 < env.wakeElapsed k → env.wakeElapsed k < (evAt events (batchStart k + i)).fire_time_us →
      event_delay_us (evAt events (batchStart k + i)).fire_time_us (env.wakeElapsed k) <
        (evAt events (batchStart k + i)).fire_time_us) := by
  refine ⟨?_, ?_, ?_, ?_⟩
  · rw [eventDelays_iterActions, List.get?_map, List.get?_range hi]
    rfl
  · intro hlt
    unfold event_delay_us
    rw [if_pos hlt]
  · intro hle
    unfold event_delay_us
    rw [if_neg (by omega)]
  · intro hpos hlt
    unfold event_delay_us
    rw [if_pos hlt]
    omega

set_option maxRecDepth 10000 in
/-- Witness for C1: batch 1 of the two-batch concrete run. -/
theorem later_batch_event_delay_absolute_witness :
    (eventDelays (iterActions ev201cex env500cex 1)).get? 0 =
      some (event_delay_us (evAt ev201cex (batchStart 1 + 0)).fire_time_us
        (env500cex.wakeElapsed 1)) :=
  (later_batch_event_delay_absolute ev201cex env500cex 1 0 (by decide) (by decide)
    (by decide)).1

/-!
Boundary-timer delays over the whole trace (for C5 and C6).
-/

/-- Number of boundary timers created by a list of timer operations. -/
def countBoundary (l : List SchedAction) : Nat :=
  l.countP fun a =>
    match a with
    | SchedAction.createBoundary _ => true
    | _ => false

/-- Modelled from the spec: the boundary-timer delay formula the
specification states for every batch including the first - the fire time
of the batch's last event by array index, minus the time already elapsed
since phase start, plus a small buffer, clamped to the buffer when the
difference is non-positive. Stated from the spec's words for comparison
with the source's first_boundary_delay_us / boundary_delay_us. -/
def spec_boundary_delay_us (last_fire_us elapsed_us : Nat) : Nat :=
  if elapsed_us < last_fire_us then (last_fire_us - elapsed_us) + 1000 else 1000

lemma batchCount_le (n k : Nat) : batchCount n k ≤ BATCH_SIZE := by
  unfold batchCount batchStart
  omega

lemma batchCount_pos (n k : Nat) (h : k < batchesTotal n) : 0 < batchCount n k := by
  unfold batchesTotal at h
  have h2 : (k + 1) * BATCH_SIZE ≤ n + BATCH_SIZE - 1 :=
    (Nat.le_div_iff_mul_le (by unfold BATCH_SIZE; norm_num)).1 h
  unfold batchCount batchStart
  unfold BATCH_SIZE at h2 ⊢
  omega

lemma boundaryDelays_firstBatch (events : List TimelineEvent) (env : TimerEnv) :
    boundaryDelays (firstBatchActions events env) = [] := by
  unfold boundaryDelays firstBatchActions
  rw [List.filterMap_map]
  exact filterMap_all_none _ _ (fun a => rfl)

lemma boundaryDelays_firstBoundary (events : List TimelineEvent)
    (h : 2 ≤ batchesTotal events.length) :
    boundaryDelays (firstBoundaryActions events) =
      [first_boundary_delay_us (lastFireOfBatch events 0)] := by
  unfold firstBoundaryActions
  rw [if_pos (by omega)]
  unfold boundaryDelays lastFireOfBatch batchStart
  simp

lemma boundaryDelays_iterActions (events : List TimelineEvent) (env : TimerEnv) (k : Nat)
    (h : 0 < batchCount events.length k) :
    boundaryDelays (iterActions events env k) =
      [boundary_delay_us (lastFireOfBatch events k) (env.wakeElapsed k)] := by
  unfold iterActions
  rw [boundaryDelays_append, boundaryDelays_append, boundaryDelays_append]
  have h1 : boundaryDelays (iterDeletions events.length k) = [] := by
    unfold boundaryDelays iterDeletions
    rw [List.filterMap_map]
    exact filterMap_all_none _ _ (fun a => rfl)
  have h2 : boundaryDelays (iterCreations events env k) = [] := by
    unfold boundaryDelays iterCreations
    rw [List.filterMap_map]
    exact filterMap_all_none _ _ (fun a => rfl)
  have h3 : boundaryDelays (iterBoundary events env k) =
      [boundary_delay_us (lastFireOfBatch events k) (env.wakeElapsed k)] := by
    unfold iterBoundary
    rw [if_pos h]
    unfold boundaryDelays lastFireOfBatch
    simp
  rw [h1, h2, h3]
  rfl

lemma boundaryDelays_iterSeq (events : List TimelineEvent) (env : TimerEnv) (m : Nat)
    (h : ∀ j, j < m → 0 < batchCount events.length (j + 1)) :
    boundaryDelays (iterSeq events env m) =
      (List.range m).map fun j =>
        boundary_delay_us (lastFireOfBatch events (j + 1)) (env.wakeElapsed (j + 1)) := by
  induction m with
  | zero => rfl
  | succ m ih =>
      rw [iterSeq, boundaryDelays_append, List.range_succ, List.map_append,
        ih (fun j hj => h j (by omega)),
        boundaryDelays_iterActions events env (m + 1) (h m (by omega))]
      simp

lemma boundaryDelays_traceRun (events : List TimelineEvent) (env : TimerEnv)
    (h : 2 ≤ batchesTotal events.length) :
    boundaryDelays (traceRun events env) =
      first_boundary_delay_us (lastFireOfBatch events 0) ::
        (List.range (batchesTotal events.length - 1)).map fun j =>
          boundary_delay_us (lastFireOfBatch events (j + 1)) (env.wakeElapsed (j + 1)) := by
  unfold traceRun
  rw [boundaryDelays_append, boundaryDelays_append, boundaryDelays_firstBatch,
    boundaryDelays_firstBoundary events h,
    boundaryDelays_iterSeq events env _
      (fun j hj => batchCount_pos events.length (j + 1) (by omega))]
  rfl

lemma boundaryDelays_traceRun_single (events : List TimelineEvent) (env : TimerEnv)
    (h : batchesTotal events.length ≤ 1) :
    boundaryDelays (traceRun events env) = [] := by
  unfold traceRun
  rw [boundaryDelays_append, boundaryDelays_append, boundaryDelays_firstBatch]
  have h1 : boundaryDelays (firstBoundaryActions events) = [] := by
    unfold firstBoundaryActions
    rw [if_neg (by omega)]
    rfl
  have h2 : batchesTotal events.length - 1 = 0 := by omega
  rw [h1, h2]
  rfl

lemma countBoundary_eq_length (l : List SchedAction) :
    countBoundary l = (boundaryDelays l).length := by
  induction l with
  | nil => rfl
  | cons a l ih =>
      unfold countBoundary boundaryDelays at ih ⊢
      cases a with
      | createBoundary d => simp [List.countP_cons, List.filterMap_cons, ih]
      | createEvent s ev d => simp [List.countP_cons, List.filterMap_cons, ih]
      | deleteEvent s => simp [List.countP_cons, List.filterMap_cons, ih]
      | deleteBoundary => simp [List.countP_cons, List.filterMap_cons, ih]

/-!
C5: boundary-timer delay formula.
-/

set_option maxRecDepth 400000 in
/-- C5 counterexample: for the first batch the boundary timer's delay is
NOT the claimed (last fire time - elapsed + buffer): on the concrete
two-batch run whose first batch ends with an event firing at 10000 us
and where 500 us have elapsed at boundary creation, the code schedules
11000 us (fire time + buffer, the clock is never read) while the claimed
formula gives 10500 us. -/
theorem first_batch_boundary_delay_cex :
    lastFireOfBatch ev201cex 0 = 10000 ∧
    env500cex.firstBoundaryElapsed = 500 ∧
    (boundaryDelays (traceRun ev201cex env500cex)).head? = some 11000 ∧
    spec_boundary_delay_us (lastFireOfBatch ev201cex 0) env500cex.firstBoundaryElapsed =
      10500 ∧
    (boundaryDelays (traceRun ev201cex env500cex)).head? ≠
      some (spec_boundary_delay_us (lastFireOfBatch ev201cex 0)
        env500cex.firstBoundaryElapsed) := by
  refine ⟨by decide, rfl, by decide, by decide, by decide⟩

/-- C5 amended: for every batch after the first, the boundary timer's
delay is (fire time of the batch's last event by array index) - (time
elapsed since phase start at wake) + 1000 us, clamped to 1000 us when
the difference is non-positive; for the first batch the delay is the
last event's fire time + 1000 us, with no elapsed-time subtraction and
no clamping. -/
theorem boundary_delay_amended (events : List TimelineEvent) (env : TimerEnv)
    (h : 2 ≤ batchesTotal events.length) :
    boundaryDelays (traceRun events env) =
      first_boundary_delay_us (lastFireOfBatch events 0) ::
        (List.range (batchesTotal events.length - 1)).map fun j =>
          boundary_delay_us (lastFireOfBatch events (j + 1)) (env.wakeElapsed (j + 1)) :=
  boundaryDelays_traceRun events env h

set_option maxRecDepth 400000 in
/-- Witness for C5's amended theorem on the concrete two-batch run. -/
theorem boundary_delay_amended_witness :
    boundaryDelays (traceRun ev201cex env500cex) =
      first_boundary_delay_us (lastFireOfBatch ev201cex 0) ::
        (List.range (batchesTotal ev201cex.length - 1)).map fun j =>
          boundary_delay_us (lastFireOfBatch ev201cex (j + 1)) (env500cex.wakeElapsed (j + 1)) :=
  boundary_delay_amended ev201cex env500cex (by decide)

/-!
C6: a boundary timer is scheduled after the last batch as well.
-/

set_option maxRecDepth 400000 in
/-- C6 counterexample: on the concrete two-batch run, two boundary
timers are created - one per batch, including the last - and the very
last operation of the whole run is the creation of a boundary timer,
performed right after the last batch's event timers were created. If no
boundary timer were scheduled after the last batch, at most one creation
(after batch 0) could appear. -/
theorem last_batch_boundary_cex :
    batchesTotal ev201cex.length = 2 ∧
    countBoundary (traceRun ev201cex env500cex) = 2 ∧
    (traceRun ev201cex env500cex).getLast? = some (SchedAction.createBoundary 11000) := by
  refine ⟨by decide, by decide, by decide⟩

/-- C6 amended: every loaded batch, including the last, schedules one
boundary timer (so a multi-batch phase creates exactly batches_total of
them, and a single-batch phase none); the final boundary timer's
callback only signals the batch semaphore and loads nothing since the
owner loop has exited. Phase completion itself is detected solely by the
event dispatcher's counter: the dispatcher is the only place the active
flag can turn false, and only when the remaining-event counter reaches
zero on a fired event. -/
theorem boundary_per_batch_amended (events : List TimelineEvent) (env : TimerEnv) :
    (2 ≤ batchesTotal events.length →
      countBoundary (traceRun events env) = batchesTotal events.length) ∧
    (batchesTotal events.length ≤ 1 → countBoundary (traceRun events env) = 0) ∧
    (∀ (ev : TimelineEvent) (st : DispatchState),
      (event_timer_cb ev st).active = false →
      st.active = false ∨ (st.remaining_events = 1 ∧ ev.pin ≠ GPIO_NUM_NC)) := by
  refine ⟨?_, ?_, ?_⟩
  · intro h
    rw [countBoundary_eq_length, boundaryDelays_traceRun events env h]
    simp
    omega
  · intro h
    rw [countBoundary_eq_length, boundaryDelays_traceRun_single events env h]
    rfl
  · intro ev st h
    unfold event_timer_cb at h
    by_cases hpin : ev.pin = GPIO_NUM_NC
    · rw [if_pos hpin] at h
      exact Or.inl h
    · rw [if_neg hpin] at h
      by_cases hrem : 0 < st.remaining_events
      · rw [if_pos hrem] at h
        by_cases hz : st.remaining_events - 1 = 0
        · rw [if_pos hz] at h
          exact Or.inr ⟨by omega, hpin⟩
        · rw [if_neg hz] at h
          exact Or.inl h
      · rw [if_neg hrem] at h
        exact Or.inl h

set_option maxRecDepth 400000 in
/-- Witness for C6's amended theorem on the concrete two-batch run. -/
theorem boundary_per_batch_amended_witness :
    countBoundary (traceRun ev201cex env500cex) = batchesTotal ev201cex.length :=
  (boundary_per_batch_amended ev201cex env500cex).1 (by decide)

/-!
Live event-timer accounting over the trace (for C2).
-/

lemma runActs_append (s : Finset Nat) (l1 l2 : List SchedAction) :
    runActs s (l1 ++ l2) = runActs (runActs s l1) l2 := by
  unfold runActs
  exact List.foldl_append _ _ _ _

lemma runActs_createSlots (s : Finset Nat) (m : Nat) (f : Nat → TimelineEvent)
    (d : Nat → Nat) :
    runActs s ((List.range m).map fun i => SchedAction.createEvent i (f i) (d i)) =
      s ∪ Finset.range m := by
  induction m with
  | zero => simp [runActs]
  | succ m ih =>
      rw [List.range_succ, List.map_append, runActs_append, ih]
      show insert m (s ∪ Finset.range m) = s ∪ Finset.range (m + 1)
      rw [Finset.range_succ, Finset.union_insert]

lemma runActs_deleteSlots (s : Finset Nat) (m : Nat) :
    runActs s ((List.range m).map SchedAction.deleteEvent) = s \ Finset.range m := by
  induction m with
  | zero => simp [runActs]
  | succ m ih =>
      rw [List.range_succ, List.map_append, runActs_append, ih]
      show (s \ Finset.range m).erase m = s \ Finset.range (m + 1)
      rw [Finset.range_succ]
      ext x
      simp only [Finset.mem_erase, Finset.mem_sdiff, Finset.mem_insert]
      tauto

lemma runActs_firstBatch (events : List TimelineEvent) (env : TimerEnv) (s : Finset Nat) :
    runActs s (firstBatchActions events env) =
      s ∪ Finset.range (batchCount events.length 0) := by
  unfold firstBatchActions
  exact runActs_createSlots s _ _ _

lemma runActs_firstBoundary (events : List TimelineEvent) (s : Finset Nat) :
    runActs s (firstBoundaryActions events) = s := by
  unfold firstBoundaryActions
  split
  · rfl
  · rfl

lemma runActs_iterCreations (events : List TimelineEvent) (env : TimerEnv) (k : Nat)
    (s : Finset Nat) :
    runActs s (iterCreations events env k) =
      s ∪ Finset.range (batchCount events.length k) := by
  unfold iterCreations
  exact runActs_createSlots s _ _ _

lemma runActs_iterBoundary (events : List TimelineEvent) (env : TimerEnv) (k : Nat)
    (s : Finset Nat) :
    runActs s (iterBoundary events env k) = s := by
  unfold iterBoundary
  split
  · rfl
  · rfl

lemma runActs_iterActions (events : List TimelineEvent) (env : TimerEnv) (k : Nat) :
    runActs (Finset.range (batchCount events.length (k - 1))) (iterActions events env k) =
      Finset.range (batchCount events.length k) := by
  unfold iterActions iterDeletions
  rw [runActs_append, runActs_append, runActs_append, runActs_deleteSlots,
    Finset.sdiff_self, runActs_iterBoundary,
    show runActs ∅ [SchedAction.deleteBoundary] = (∅ : Finset Nat) from rfl,
    runActs_iterCreations]
  exact Finset.empty_union _

lemma runActs_iterSeq (events : List TimelineEvent) (env : TimerEnv) (m : Nat) :
    runActs (Finset.range (batchCount events.length 0)) (iterSeq events env m) =
      Finset.range (batchCount events.length m) := by
  induction m with
  | zero => rfl
  | succ m ih =>
      rw [iterSeq, runActs_append, ih]
      have := runActs_iterActions events env (m + 1)
      simpa using this

/-- Every prefix of l, run from start state s, leaves at most BATCH_SIZE
live event-timer slots. -/
def PrefixBounded (s : Finset Nat) (l : List SchedAction) : Prop :=
  ∀ j, (runActs s (l.take j)).card ≤ BATCH_SIZE

lemma prefixBounded_append {s : Finset Nat} {l1 l2 : List SchedAction}
    (h1 : PrefixBounded s l1) (h2 : PrefixBounded (runActs s l1) l2) :
    PrefixBounded s (l1 ++ l2) := by
  intro j
  rw [List.take_append_eq_append_take, runActs_append]
  by_cases hj : j ≤ l1.length
  · have hz : j - l1.length = 0 := by omega
    rw [hz]
    show (runActs (runActs s (l1.take j)) []).card ≤ BATCH_SIZE
    exact h1 j
  · rw [List.take_of_length_le (by omega)]
    exact h2 (j - l1.length)

lemma prefixBounded_createSlots (m : Nat) (f : Nat → TimelineEvent) (d : Nat → Nat)
    (hm : m ≤ BATCH_SIZE) :
    PrefixBounded ∅ ((List.range m).map fun i => SchedAction.createEvent i (f i) (d i)) := by
  intro j
  rw [← List.map_take, List.take_range, runActs_createSlots, Finset.empty_union,
    Finset.card_range]
  omega

lemma prefixBounded_deleteSlots (s : Finset Nat) (m : Nat) (hs : s.card ≤ BATCH_SIZE) :
    PrefixBounded s ((List.range m).map SchedAction.deleteEvent) := by
  intro j
  rw [← List.map_take, List.take_range, runActs_deleteSlots]
  exact le_trans (Finset.card_le_card Finset.sdiff_subset) hs

lemma prefixBounded_fixed {s : Finset Nat} {l : List SchedAction}
    (hl : ∀ j, runActs s (l.take j) = s) (hs : s.card ≤ BATCH_SIZE) :
    PrefixBounded s l := by
  intro j
  rw [hl j]
  exact hs

lemma prefixBounded_deleteBoundary (s : Finset Nat) (hs : s.card ≤ BATCH_SIZE) :
    PrefixBounded s [SchedAction.deleteBoundary] := by
  refine prefixBounded_fixed (fun j => ?_) hs
  cases j with
  | zero => rfl
  | succ j =>
      rw [List.take_succ_cons, List.take_nil]
      rfl

lemma prefixBounded_firstBoundary (events : List TimelineEvent) (s : Finset Nat)
    (hs : s.card ≤ BATCH_SIZE) :
    PrefixBounded s (firstBoundaryActions events) := by
  refine prefixBounded_fixed (fun j => ?_) hs
  unfold firstBoundaryActions
  split
  · cases j with
    | zero => rfl
    | succ j =>
        rw [List.take_succ_cons, List.take_nil]
        rfl
  · rw [List.take_nil]
    rfl

lemma prefixBounded_iterBoundary (events : List TimelineEvent) (env : TimerEnv) (k : Nat)
    (s : Finset Nat) (hs : s.card ≤ BATCH_SIZE) :
    PrefixBounded s (iterBoundary events env k) := by
  refine prefixBounded_fixed (fun j => ?_) hs
  unfold iterBoundary
  split
  · cases j with
    | zero => rfl
    | succ j =>
        rw [List.take_succ_cons, List.take_nil]
        rfl
  · rw [List.take_nil]
    rfl

lemma prefixBounded_iterActions (events : List TimelineEvent) (env : TimerEnv) (k : Nat) :
    PrefixBounded (Finset.range (batchCount events.length (k - 1)))
      (iterActions events env k) := by
  unfold iterActions
  rw [List.append_assoc, List.append_assoc]
  apply prefixBounded_append
  · unfold iterDeletions
    exact prefixBounded_deleteSlots _ _ (by rw [Finset.card_range]; exact batchCount_le _ _)
  unfold iterDeletions
  rw [runActs_deleteSlots, Finset.sdiff_self]
  apply prefixBounded_append
  · exact prefixBounded_deleteBoundary ∅ (by simp)
  rw [show runActs ∅ [SchedAction.deleteBoundary] = (∅ : Finset Nat) from rfl]
  apply prefixBounded_append
  · unfold iterCreations
    exact prefixBounded_createSlots _ _ _ (batchCount_le _ _)
  rw [runActs_iterCreations, Finset.empty_union]
  exact prefixBounded_iterBoundary events env k _
    (by rw [Finset.card_range]; exact batchCount_le _ _)

lemma prefixBounded_iterSeq (events : List TimelineEvent) (env : TimerEnv) (m : Nat) :
    PrefixBounded (Finset.range (batchCount events.length 0)) (iterSeq events env m) := by
  induction m with
  | zero =>
      refine prefixBounded_fixed (fun j => ?_) (by rw [Finset.card_range]; exact batchCount_le _ _)
      rw [show iterSeq events env 0 = [] from rfl, List.take_nil]
      rfl
  | succ m ih =>
      rw [iterSeq]
      apply prefixBounded_append ih
      rw [runActs_iterSeq]
      have := prefixBounded_iterActions events env (m + 1)
      simpa using this

lemma iterSeq_split (events : List TimelineEvent) (env : TimerEnv) (m j : Nat)
    (h : j ≤ m) :
    ∃ rest, iterSeq events env m = iterSeq events env j ++ rest := by
  induction m with
  | zero =>
      have hj : j = 0 := by omega
      subst hj
      exact ⟨[], rfl⟩
  | succ m ih =>
      by_cases hj : j = m + 1
      · subst hj
        exact ⟨[], by simp⟩
      · obtain ⟨r, hr⟩ := ih (by omega)
        refine ⟨r ++ iterActions events env (m + 1), ?_⟩
        rw [iterSeq, hr, List.append_assoc]

/-!
C2: the batch bound invariant.
-/

/-- C2: at any instant during a phase run, at most BATCH_SIZE live event
timers exist, regardless of the total event count (first conjunct, over
every prefix of the operation trace); moreover every batch after the
first is created only once the bounded handle array has been completely
emptied by the deletion sweep - the live-slot set is empty right after
the deletions of the iteration loading batch k+1 (second conjunct), and
as long as batch k+1 exists that deletion-sweep prefix really is a
prefix of the phase's trace (third conjunct). -/
theorem batch_live_timer_bound (events : List TimelineEvent) (env : TimerEnv) :
    (∀ j, (runActs ∅ ((traceRun events env).take j)).card ≤ BATCH_SIZE) ∧
    (∀ k, runActs ∅ (traceUpToDeletions events env (k + 1)) = ∅) ∧
    (∀ k, k + 1 < batchesTotal events.length →
      ∃ rest, traceRun events env = traceUpToDeletions events env (k + 1) ++ rest) := by
  refine ⟨?_, ?_, ?_⟩
  · show PrefixBounded ∅ (traceRun events env)
    unfold traceRun
    rw [List.append_assoc]
    apply prefixBounded_append
    · unfold firstBatchActions
      exact prefixBounded_createSlots _ _ _ (batchCount_le _ _)
    rw [runActs_firstBatch, Finset.empty_union]
    apply prefixBounded_append
    · exact prefixBounded_firstBoundary events _
        (by rw [Finset.card_range]; exact batchCount_le _ _)
    rw [runActs_firstBoundary]
    exact prefixBounded_iterSeq events env _
  · intro k
    unfold traceUpToDeletions iterDeletions
    rw [runActs_append, runActs_append, runActs_append, runActs_append,
      runActs_firstBatch, Finset.empty_union, runActs_firstBoundary, runActs_iterSeq,
      runActs_deleteSlots]
    simp [Finset.sdiff_self]
    rfl
  · intro k hk
    obtain ⟨r, hr⟩ :=
      iterSeq_split events env (batchesTotal events.length - 1) (k + 1) (by omega)
    refine ⟨iterCreations events env (k + 1) ++ iterBoundary events env (k + 1) ++ r, ?_⟩
    unfold traceRun traceUpToDeletions
    rw [hr, iterSeq]
    unfold iterActions
    simp [List.append_assoc]

set_option maxRecDepth 400000 in
/-- Witness for C2's third conjunct on the concrete two-batch run: the
empty-after-deletions point for batch 1 is a genuine trace prefix. -/
theorem batch_live_timer_bound_witness :
    ∃ rest, traceRun ev201cex env500cex = traceUpToDeletions ev201cex env500cex 1 ++ rest :=
  (batch_live_timer_bound ev201cex env500cex).2.2 0 (by decide)

/-!
Pin-validity lemmas for the built timeline (for C3 and C10).
-/

lemma emitIfRoom_mem {acc : List TimelineEvent} {maxEvents : Nat} {e ev : TimelineEvent}
    (h : ev ∈ emitIfRoom acc maxEvents e) : ev ∈ acc ∨ ev = e := by
  unfold emitIfRoom at h
  split at h
  · rcases List.mem_append.1 h with h1 | h1
    · exact Or.inl h1
    · exact Or.inr (List.mem_singleton.1 h1)
  · exact Or.inl h

lemma motorStepEmit_pins {base maxEvents : Nat} {st : Nat × List TimelineEvent}
    {step : MotorPatternStep}
    (h : ∀ ev ∈ st.2, ev.pin = MOTOR_ON_PIN ∨ ev.pin = MOTOR_DIRECTION_PIN) :
    ∀ ev ∈ (motorStepEmit base maxEvents st step).2,
      ev.pin = MOTOR_ON_PIN ∨ ev.pin = MOTOR_DIRECTION_PIN := by
  intro ev hev
  unfold motorStepEmit at hev
  rcases emitIfRoom_mem hev with h3 | h3
  · rcases emitIfRoom_mem h3 with h2 | h2
    · rcases emitIfRoom_mem h2 with h1 | h1
      · exact h ev h1
      · subst h1
        exact Or.inr rfl
    · subst h2
      exact Or.inl rfl
  · subst h3
    exact Or.inl rfl

lemma foldl_motorStepEmit_pins (base maxEvents : Nat) (steps : List MotorPatternStep) :
    ∀ st : Nat × List TimelineEvent,
      (∀ ev ∈ st.2, ev.pin = MOTOR_ON_PIN ∨ ev.pin = MOTOR_DIRECTION_PIN) →
      ∀ ev ∈ (steps.foldl (motorStepEmit base maxEvents) st).2,
        ev.pin = MOTOR_ON_PIN ∨ ev.pin = MOTOR_DIRECTION_PIN := by
  induction steps with
  | nil => exact fun st h => h
  | cons s steps ih =>
      intro st h
      exact ih (motorStepEmit base maxEvents st s) (motorStepEmit_pins h)

lemma append_motor_events_pins (c : PhaseComponent) (base maxEvents : Nat) :
    ∀ ev ∈ append_motor_events c base maxEvents,
      ev.pin = MOTOR_ON_PIN ∨ ev.pin = MOTOR_DIRECTION_PIN := by
  unfold append_motor_events
  cases hc : c.motor_cfg with
  | none => intro ev hev; cases hev
  | some mc =>
      have main : ∀ (R : Nat) (st : Nat × List TimelineEvent),
          (∀ ev ∈ st.2, ev.pin = MOTOR_ON_PIN ∨ ev.pin = MOTOR_DIRECTION_PIN) →
          ∀ ev ∈ ((List.range R).foldl
            (fun st _ => mc.pattern.foldl (motorStepEmit base maxEvents) st) st).2,
            ev.pin = MOTOR_ON_PIN ∨ ev.pin = MOTOR_DIRECTION_PIN := by
        intro R
        induction R with
        | zero => exact fun st h => h
        | succ R ih =>
            intro st h
            rw [List.range_succ, List.foldl_append]
            exact foldl_motorStepEmit_pins base maxEvents mc.pattern _
              (ih st h)
      exact main mc.repeat_times.toNat (c.start_ms, []) (fun ev hev => absurd hev (by simp))

lemma buildTimelineGo_pins (start_time_ms maxEvents : Nat) :
    ∀ (comps : List PhaseComponent) (acc : List TimelineEvent),
      (∀ ev ∈ acc, ev.pin ≠ GPIO_NUM_NC) →
      ∀ ev ∈ buildTimelineGo start_time_ms maxEvents comps acc, ev.pin ≠ GPIO_NUM_NC := by
  intro comps
  induction comps with
  | nil => exact fun acc h => h
  | cons c rest ih =>
      intro acc hacc
      unfold buildTimelineGo
      split
      · split
        · refine ih _ (fun ev hev => ?_)
          rcases List.mem_append.1 hev with h1 | h1
          · exact hacc ev h1
          · rcases append_motor_events_pins c start_time_ms _ ev h1 with h2 | h2
            · rw [h2]; unfold MOTOR_ON_PIN GPIO_NUM_NC; omega
            · rw [h2]; unfold MOTOR_DIRECTION_PIN GPIO_NUM_NC; omega
        · split
          · exact ih acc hacc
          · rename_i hlen hmot hpin
            refine ih _ (fun ev hev => ?_)
            rcases emitIfRoom_mem hev with h1 | h1
            · rcases emitIfRoom_mem h1 with h2 | h2
              · exact hacc ev h2
              · subst h2
                exact hpin
            · subst h1
              exact hpin
      · exact hacc

lemma build_timeline_pins (phase : Phase) (maxEvents : Nat) :
    ∀ ev ∈ build_timeline_from_phase phase maxEvents, ev.pin ≠ GPIO_NUM_NC := by
  unfold build_timeline_from_phase
  exact buildTimelineGo_pins _ _ _ [] (fun ev hev => absurd hev (by simp))

/-!
C3: completion accounting of the event dispatcher.
-/

lemma event_timer_cb_step (ev : TimelineEvent) (st : DispatchState)
    (hpin : ev.pin ≠ GPIO_NUM_NC) (hrem : 0 < st.remaining_events) :
    (event_timer_cb ev st).remaining_events = st.remaining_events - 1 ∧
    (event_timer_cb ev st).active =
      (if st.remaining_events - 1 = 0 then false else st.active) := by
  unfold event_timer_cb
  rw [if_neg hpin, if_pos hrem]
  by_cases hz : st.remaining_events - 1 = 0
  · rw [if_pos hz, if_pos hz]
    exact ⟨rfl, rfl⟩
  · rw [if_neg hz, if_neg hz]
    exact ⟨rfl, rfl⟩

lemma fireAll_progress (evs : List TimelineEvent)
    (hpin : ∀ ev ∈ evs, ev.pin ≠ GPIO_NUM_NC) (shadow : List Nat)
    (hn : 1 ≤ evs.length) :
    ∀ k, k ≤ evs.length →
      (fireAll (evs.take k)
        { gpio_shadow := shadow, remaining_events := evs.length, active := true
          : DispatchState }).remaining_events = evs.length - k ∧
      (fireAll (evs.take k)
        { gpio_shadow := shadow, remaining_events := evs.length, active := true
          : DispatchState }).active = decide (k < evs.length) := by
  intro k
  induction k with
  | zero =>
      intro _
      constructor
      · rfl
      · show true = decide (0 < evs.length)
        simp [show 0 < evs.length by omega]
  | succ k ih =>
      intro hk1
      have hklt : k < evs.length := by omega
      obtain ⟨ev, hev⟩ : ∃ ev, evs.get? k = some ev := by
        rw [List.get?_eq_get hklt]
        exact ⟨_, rfl⟩
      have hmem : ev ∈ evs := List.get?_mem hev
      have htake : evs.take (k + 1) = evs.take k ++ [ev] := by
        rw [List.take_succ, ← List.get?_eq_getElem?, hev]
        rfl
      have hfold : ∀ st : DispatchState,
          fireAll (evs.take k ++ [ev]) st = event_timer_cb ev (fireAll (evs.take k) st) := by
        intro st
        unfold fireAll
        rw [List.foldl_append]
        rfl
      obtain ⟨ihr, iha⟩ := ih (by omega)
      rw [htake, hfold]
      obtain ⟨hstep_r, hstep_a⟩ :=
        event_timer_cb_step ev
          (fireAll (evs.take k)
            { gpio_shadow := shadow, remaining_events := evs.length, active := true })
          (hpin ev hmem) (by omega)
      rw [hstep_r, hstep_a, ihr, iha]
      constructor
      · omega
      · by_cases hz : evs.length - k - 1 = 0
        · have h2 : ¬ (k + 1 < evs.length) := by omega
          simp [hz, h2]
        · have h1 : k < evs.length := hklt
          have h2 : k + 1 < evs.length := by omega
          simp [hz, h1, h2]

/-- C3: firing the events of a built phase timeline through the event
dispatcher decrements remaining_events exactly once per fired event
(after k fires it is length - k); the phase stays active while events
remain and the inactive transition happens exactly at the last fired
event - so after all scheduled events have fired, remaining_events is 0
and active is false, reached exactly once. -/
theorem remaining_events_completion (phase : Phase) (maxEvents : Nat) (shadow : List Nat)
    (h1 : 1 ≤ (build_timeline_from_phase phase maxEvents).length) :
    (∀ k, k ≤ (build_timeline_from_phase phase maxEvents).length →
      (fireAll ((build_timeline_from_phase phase maxEvents).take k)
        { gpio_shadow := shadow
          remaining_events := (build_timeline_from_phase phase maxEvents).length
          active := true }).remaining_events =
        (build_timeline_from_phase phase maxEvents).length - k ∧
      (fireAll ((build_timeline_from_phase phase maxEvents).take k)
        { gpio_shadow := shadow
          remaining_events := (build_timeline_from_phase phase maxEvents).length
          active := true }).active =
        decide (k < (build_timeline_from_phase phase maxEvents).length)) ∧
    (fireAll (build_timeline_from_phase phase maxEvents)
      { gpio_shadow := shadow
        remaining_events := (build_timeline_from_phase phase maxEvents).length
        active := true }).remaining_events = 0 ∧
    (fireAll (build_timeline_from_phase phase maxEvents)
      { gpio_shadow := shadow
        remaining_events := (build_timeline_from_phase phase maxEvents).length
        active := true }).active = false := by
  have hpin := build_timeline_pins phase maxEvents
  have main := fireAll_progress (build_timeline_from_phase phase maxEvents) hpin shadow h1
  refine ⟨main, ?_, ?_⟩
  · have := (main (build_timeline_from_phase phase maxEvents).length (le_refl _)).1
    rw [List.take_length] at this
    omega
  · have := (main (build_timeline_from_phase phase maxEvents).length (le_refl _)).2
    rw [List.take_length] at this
    simp at this
    exact this

/-- Concrete phase with one simple component (Cold Valve, start 0,
duration 2000 ms). -/
def phaseW : Phase :=
  { start_time_ms := 0
    components :=
      [{ compId := "Cold Valve", start_ms := 0, duration_ms := 2000,
         has_motor := false, motor_cfg := none }] }

/-- Witness for C3: the two-event timeline of the concrete phase drives
remaining_events to 0. -/
theorem remaining_events_completion_witness :
    (fireAll (build_timeline_from_phase phaseW 1600)
      { gpio_shadow := [1, 1, 1, 1, 1, 1, 1, 1]
        remaining_events := (build_timeline_from_phase phaseW 1600).length
        active := true }).remaining_events = 0 :=
  (remaining_events_completion phaseW 1600 [1, 1, 1, 1, 1, 1, 1, 1] (by decide)).2.1

/-!
C10: motor events target fixed pins; compId is never consulted.
-/

/-- A concrete motor configuration: one repetition of a single
100 ms / 50 ms clockwise step. -/
def mcW : MotorConfig :=
  { repeat_times := 1
    pattern := [{ step_time_ms := 100, pause_time_ms := 50, direction := some "cw" }] }

/-- A concrete motor component. -/
def cW : PhaseComponent :=
  { compId := "Motor", start_ms := 0, duration_ms := 0, has_motor := true,
    motor_cfg := some mcW }

/-- C10: every event produced for a motor component targets MOTOR_ON_PIN
or MOTOR_DIRECTION_PIN, both fixed at compile time (first conjunct); the
expansion is completely independent of the component's role identifier
compId (second conjunct); and the timeline builder routes any motor
component (has_motor with a non-NULL motor_cfg) into the motor branch
without ever resolving compId, so the unknown-role skip-with-warning
path cannot apply to it (third conjunct). -/
theorem motor_events_fixed_pins (c : PhaseComponent) (base maxEvents : Nat)
    (h1 : c.has_motor = true) (h2 : c.motor_cfg.isSome = true) :
    (∀ ev ∈ append_motor_events c base maxEvents,
      ev.pin = MOTOR_ON_PIN ∨ ev.pin = MOTOR_DIRECTION_PIN) ∧
    (∀ s, append_motor_events { c with compId := s } base maxEvents =
      append_motor_events c base maxEvents) ∧
    (∀ (startT maxE2 : Nat) (acc : List TimelineEvent) (rest : List PhaseComponent),
      buildTimelineGo startT maxE2 (c :: rest) acc =
        if acc.length < maxE2 then
          buildTimelineGo startT maxE2 rest
            (acc ++ append_motor_events c startT (maxE2 - acc.length))
        else acc) := by
  refine ⟨append_motor_events_pins c base maxEvents, fun s => rfl, ?_⟩
  intro startT maxE2 acc rest
  conv_lhs => rw [buildTimelineGo]
  by_cases hlen : acc.length < maxE2
  · rw [if_pos hlen, if_pos ⟨h1, h2⟩, if_pos hlen]
  · rw [if_neg hlen, if_neg hlen]

/-- Witness for C10: the expansion of the concrete motor component is
unchanged when its role identifier is replaced by an unknown one. -/
theorem motor_events_fixed_pins_witness :
    append_motor_events { cW with compId := "Bogus Role" } 0 6 =
      append_motor_events cW 0 6 :=
  (motor_events_fixed_pins cW 0 6 rfl rfl).2.1 "Bogus Role"

/-!
C4: deterministic structure of the motor expansion.
-/

/-- The sequence of pattern steps actually walked by append_motor_events:
R repetitions of the pattern, in order. -/
def repeatedPattern (R : Nat) (p : List MotorPatternStep) : List MotorPatternStep :=
  match R with
  | 0 => []
  | R + 1 => p ++ repeatedPattern R p

/-- Capacity-free expansion: three events per step (direction-set and
actuate at the cursor, deactivate at cursor + step time), cursor advanced
by step time + pause time. -/
def cleanExpand (base : Nat) : Nat → List MotorPatternStep → List TimelineEvent
  | _, [] => []
  | t, s :: ss =>
      dirEvent base t s :: onEvent base t :: offEvent base t s ::
        cleanExpand base (stepAdvance t s) ss

/-- Cursor value before step k of a step sequence, starting from t0. -/
def motorCursor (t0 : Nat) (steps : List MotorPatternStep) (k : Nat) : Nat :=
  (steps.take k).foldl stepAdvance t0

lemma foldl_const {α β : Type} (l : List α) (g : β → β) :
    ∀ st : β, l.foldl (fun s _ => g s) st = g^[l.length] st := by
  induction l with
  | nil => intro st; rfl
  | cons a l ih =>
      intro st
      show l.foldl (fun s _ => g s) (g st) = g^[l.length + 1] st
      rw [ih (g st), Function.iterate_succ_apply]

lemma repeatedPattern_foldl {γ : Type} (p : List MotorPatternStep)
    (f : γ → MotorPatternStep → γ) :
    ∀ (R : Nat) (st : γ),
      (repeatedPattern R p).foldl f st = (fun s => p.foldl f s)^[R] st := by
  intro R
  induction R with
  | zero => intro st; rfl
  | succ R ih =>
      intro st
      show (p ++ repeatedPattern R p).foldl f st = _
      rw [List.foldl_append, ih (p.foldl f st), Function.iterate_succ_apply]

lemma append_motor_events_eq (c : PhaseComponent) (mc : MotorConfig)
    (base maxEvents : Nat) (h : c.motor_cfg = some mc) :
    append_motor_events c base maxEvents =
      ((repeatedPattern mc.repeat_times.toNat mc.pattern).foldl
        (motorStepEmit base maxEvents) (c.start_ms, [])).2 := by
  have h1 : append_motor_events c base maxEvents =
      ((List.range mc.repeat_times.toNat).foldl
        (fun st _ => mc.pattern.foldl (motorStepEmit base maxEvents) st)
        (c.start_ms, ([] : List TimelineEvent))).2 := by
    unfold append_motor_events
    rw [h]
  have h2 := foldl_const (List.range mc.repeat_times.toNat)
      (fun s => mc.pattern.foldl (motorStepEmit base maxEvents) s)
      (c.start_ms, ([] : List TimelineEvent))
  rw [List.length_range] at h2
  have h3 := repeatedPattern_foldl mc.pattern (motorStepEmit base maxEvents)
      mc.repeat_times.toNat (c.start_ms, ([] : List TimelineEvent))
  rw [h1]
  exact congrArg Prod.snd (h2.trans h3.symm)

lemma repeatedPattern_length (R : Nat) (p : List MotorPatternStep) :
    (repeatedPattern R p).length = R * p.length := by
  induction R with
  | zero => simp [repeatedPattern]
  | succ R ih =>
      show (p ++ repeatedPattern R p).length = (R + 1) * p.length
      rw [List.length_append, ih]
      ring

lemma motorStepEmit_roomy (base maxEvents : Nat) (t : Nat) (acc : List TimelineEvent)
    (s : MotorPatternStep) (h : acc.length + 3 ≤ maxEvents) :
    motorStepEmit base maxEvents (t, acc) s =
      (stepAdvance t s, acc ++ [dirEvent base t s, onEvent base t, offEvent base t s]) := by
  have c1 : acc.length < maxEvents := by omega
  have c2 : acc.length + 1 < maxEvents := by omega
  have c3 : acc.length + 1 + 1 < maxEvents := by omega
  simp [motorStepEmit, emitIfRoom, c1, c2, c3]

lemma foldl_cleanExpand (base maxEvents : Nat) :
    ∀ (steps : List MotorPatternStep) (t : Nat) (acc : List TimelineEvent),
      acc.length + 3 * steps.length ≤ maxEvents →
      steps.foldl (motorStepEmit base maxEvents) (t, acc) =
        (steps.foldl stepAdvance t, acc ++ cleanExpand base t steps) := by
  intro steps
  induction steps with
  | nil =>
      intro t acc _
      simp [cleanExpand]
  | cons s ss ih =>
      intro t acc h
      have hroom : acc.length + 3 ≤ maxEvents := by
        have : ss.length + 1 = (s :: ss).length := rfl
        simp only [List.length_cons] at h
        omega
      show ss.foldl (motorStepEmit base maxEvents) (motorStepEmit base maxEvents (t, acc) s) =
        _
      rw [motorStepEmit_roomy base maxEvents t acc s hroom]
      rw [ih (stepAdvance t s) (acc ++ [dirEvent base t s, onEvent base t, offEvent base t s])
        (by simp only [List.length_append, List.length_cons, List.length_nil,
          List.length_cons] at h ⊢; simp; omega)]
      show _ = ((s :: ss).foldl stepAdvance t, acc ++ cleanExpand base t (s :: ss))
      rw [show cleanExpand base t (s :: ss) =
        dirEvent base t s :: onEvent base t :: offEvent base t s ::
          cleanExpand base (stepAdvance t s) ss from rfl]
      simp

lemma cleanExpand_length (base : Nat) :
    ∀ (ss : List MotorPatternStep) (t : Nat),
      (cleanExpand base t ss).length = 3 * ss.length := by
  intro ss
  induction ss with
  | nil => intro t; rfl
  | cons s ss ih =>
      intro t
      show (cleanExpand base t (s :: ss)).length = 3 * (ss.length + 1)
      rw [show cleanExpand base t (s :: ss) =
        dirEvent base t s :: onEvent base t :: offEvent base t s ::
          cleanExpand base (stepAdvance t s) ss from rfl]
      simp [ih]
      ring

lemma cleanExpand_get (base : Nat) :
    ∀ (ss : List MotorPatternStep) (t k : Nat) (s : MotorPatternStep),
      ss.get? k = some s →
      (cleanExpand base t ss).get? (3 * k) =
        some (dirEvent base (motorCursor t ss k) s) ∧
      (cleanExpand base t ss).get? (3 * k + 1) =
        some (onEvent base (motorCursor t ss k)) ∧
      (cleanExpand base t ss).get? (3 * k + 2) =
        some (offEvent base (motorCursor t ss k) s) ∧
      motorCursor t ss (k + 1) = stepAdvance (motorCursor t ss k) s := by
  intro ss
  induction ss with
  | nil =>
      intro t k s h
      cases h
  | cons s0 ss ih =>
      intro t k s h
      cases k with
      | zero =>
          have hs : s0 = s := Option.some.inj h
          subst hs
          refine ⟨rfl, rfl, rfl, ?_⟩
          rfl
      | succ k =>
          have hget : ss.get? k = some s := h
          obtain ⟨g1, g2, g3, g4⟩ := ih (stepAdvance t s0) k s hget
          have e0 : 3 * (k + 1) = 3 * k + 3 := by ring
          have e1 : 3 * (k + 1) + 1 = 3 * k + 1 + 3 := by ring
          have e2 : 3 * (k + 1) + 2 = 3 * k + 2 + 3 := by ring
          have hcur : ∀ j, motorCursor t (s0 :: ss) (j + 1) =
              motorCursor (stepAdvance t s0) ss j := fun j => rfl
          refine ⟨?_, ?_, ?_, ?_⟩
          · rw [e0]
            show (cleanExpand base (stepAdvance t s0) ss).get? (3 * k) = _
            rw [g1, hcur k]
          · rw [e1]
            show (cleanExpand base (stepAdvance t s0) ss).get? (3 * k + 1) = _
            rw [g2, hcur k]
          · rw [e2]
            show (cleanExpand base (stepAdvance t s0) ss).get? (3 * k + 2) = _
            rw [g3, hcur k]
          · rw [hcur (k + 1), hcur k, g4]

/-- C4: for a motor component with repeat count R (at least 1) and
pattern length P (at least 1), given capacity for all 3*R*P events, the
expansion produces exactly 3*R*P events; for every walked step k (the
steps are R concatenated copies of the pattern), the events at positions
3k and 3k+1 are the direction-set and actuate events, both firing at the
current cursor, the event at 3k+2 is the deactivate event firing at
cursor + step time, and the cursor then advances by step time + pause
time (uint32 arithmetic). -/
theorem motor_expansion_structure (c : PhaseComponent) (mc : MotorConfig)
    (base maxEvents : Nat) (hc : c.motor_cfg = some mc)
    (hR : 1 ≤ mc.repeat_times) (hP : 1 ≤ mc.pattern.length)
    (hcap : 3 * mc.repeat_times.toNat * mc.pattern.length ≤ maxEvents) :
    (append_motor_events c base maxEvents).length =
      3 * mc.repeat_times.toNat * mc.pattern.length ∧
    (∀ (k : Nat) (s : MotorPatternStep),
      (repeatedPattern mc.repeat_times.toNat mc.pattern).get? k = some s →
      (append_motor_events c base maxEvents).get? (3 * k) =
        some (dirEvent base
          (motorCursor c.start_ms (repeatedPattern mc.repeat_times.toNat mc.pattern) k) s) ∧
      (append_motor_events c base maxEvents).get? (3 * k + 1) =
        some (onEvent base
          (motorCursor c.start_ms (repeatedPattern mc.repeat_times.toNat mc.pattern) k)) ∧
      (append_motor_events c base maxEvents).get? (3 * k + 2) =
        some (offEvent base
          (motorCursor c.start_ms (repeatedPattern mc.repeat_times.toNat mc.pattern) k) s) ∧
      (∀ t_ms : Nat, (dirEvent base t_ms s).fire_time_us = u32 (base + t_ms) * 1000 ∧
        (onEvent base t_ms).fire_time_us = u32 (base + t_ms) * 1000 ∧
        (offEvent base t_ms s).fire_time_us =
          u32 (base + u32 (t_ms + s.step_time_ms)) * 1000) ∧
      motorCursor c.start_ms (repeatedPattern mc.repeat_times.toNat mc.pattern) (k + 1) =
        u32 (motorCursor c.start_ms (repeatedPattern mc.repeat_times.toNat mc.pattern) k +
          s.step_time_ms + s.pause_time_ms)) := by
  have hlen3 : (0 : Nat) + 3 * (repeatedPattern mc.repeat_times.toNat mc.pattern).length ≤
      maxEvents := by
    rw [repeatedPattern_length]
    have : 3 * (mc.repeat_times.toNat * mc.pattern.length) =
        3 * mc.repeat_times.toNat * mc.pattern.length := by ring
    omega
  have hmain : append_motor_events c base maxEvents =
      cleanExpand base c.start_ms (repeatedPattern mc.repeat_times.toNat mc.pattern) := by
    rw [append_motor_events_eq c mc base maxEvents hc,
      foldl_cleanExpand base maxEvents _ c.start_ms [] (by simpa using hlen3)]
    simp
  constructor
  · rw [hmain, cleanExpand_length, repeatedPattern_length]
    ring
  · intro k s hks
    obtain ⟨g1, g2, g3, g4⟩ := cleanExpand_get base _ c.start_ms k s hks
    rw [hmain]
    exact ⟨g1, g2, g3, fun t_ms => ⟨rfl, rfl, rfl⟩, by rw [g4]; rfl⟩

/-- Witness for C4 at the concrete one-step motor component: 3 events. -/
theorem motor_expansion_structure_witness :
    (append_motor_events cW 0 3).length = 3 * mcW.repeat_times.toNat * mcW.pattern.length :=
  (motor_expansion_structure cW mcW 0 3 rfl (by decide) (by decide) (by decide)).1

end CycleOptima
